import Mathlib

/-!
Verification of `tools/classify.py` (Open Images inference script).

The script is a single linear pipeline: preprocess an image, run one
forward pass of a pretrained network, and print the top-N predictions.
We embed the parts the claims are about:

* `normalizePixel` — the pixel normalization of `PreprocessImage`
  (`img * (1.0/127.5)` followed by `- 1.0`);
* `LoadLabelMaps` — loading of the label map and the `dict.csv`
  mid-to-display-name dictionary, with its `sys.exit(1)` on a line-count
  mismatch and its `IndexError` on a comma-less dict line;
* `topK` / `reportLines` — the reporting loop of `main`:
  `top_k = predictions_eval.argsort()[-n:][::-1]`, then one printed line
  per entry of `top_k`;
* `runMain` — the control flow of `main` over an environment recording
  which files exist and are well-formed.  The network itself is external
  to the repository; its output score vector is a field of the
  environment.

Scores are modelled as rationals.  Python strings are Lean `String`s;
Python lists are Lean `List`s; the Python dict is an association list
whose assignment overwrites in place (`pyDictSet`) and whose `get`
returns the first matching value (`pyDictGet`) — keys are unique by
construction, so this is the Python dict semantics.
-/

/-- The whitespace characters stripped by Python's `str.rstrip()`
with no argument. -/
def pyWhitespaceChars : List Char := [' ', '\t', '\n', '\r', '\x0b', '\x0c']

/-- Python `line.rstrip()`: drop trailing whitespace. -/
def pyRstrip (s : String) : String :=
  String.mk ((s.data.reverse.dropWhile (fun c => c ∈ pyWhitespaceChars)).reverse)

/-- The character set of `word.strip(' "\n')` in `LoadLabelMaps`. -/
def stripSetChars : List Char := [' ', '"', '\n']

/-- Python `word.strip(' "\n')`: drop leading and trailing characters
from the set space, double quote, newline. -/
def pyStrip (s : String) : String :=
  String.mk (((s.data.dropWhile (fun c => c ∈ stripSetChars)).reverse.dropWhile
    (fun c => c ∈ stripSetChars)).reverse)

/-- Split a character list at the first comma: `none` when there is no
comma, otherwise the characters before it and the characters after it. -/
def splitAtComma : List Char → Option (List Char × List Char)
  | [] => none
  | c :: rest =>
    if c = ',' then some ([], rest)
    else
      match splitAtComma rest with
      | none => none
      | some (a, b) => some (c :: a, b)

/-- Python `line.split(',', 1)`: the whole string when it has no comma,
otherwise the part before the first comma and the part after it. -/
def pySplitComma1 (s : String) : List String :=
  match splitAtComma s.data with
  | none => [s]
  | some (a, b) => [String.mk a, String.mk b]

/-- Python `label_dict[k] = v`: overwrite the value in place when the key
is present, append the pair otherwise. -/
def pyDictSet (d : List (String × String)) (k v : String) : List (String × String) :=
  match d with
  | [] => [(k, v)]
  | (k', v') :: rest => if k' = k then (k, v) :: rest else (k', v') :: pyDictSet rest k v

/-- Python `label_dict.get(k, dflt)`: the value of the first matching
key, or the default. -/
def pyDictGet (d : List (String × String)) (k dflt : String) : String :=
  match d with
  | [] => dflt
  | (k', v') :: rest => if k' = k then v' else pyDictGet rest k dflt

/-- The dict-building loop of `LoadLabelMaps`:
`words = [word.strip(' "\n') for word in line.split(',', 1)]` followed by
`label_dict[words[0]] = words[1]` for each line.  A line with no comma
yields a one-element `words`, so `words[1]` raises `IndexError`
(modelled as `.error`). -/
def buildLabelDict : List String → List (String × String) →
    Except String (List (String × String))
  | [], label_dict => .ok label_dict
  | line :: rest, label_dict =>
    match (pySplitComma1 line).map pyStrip with
    | [w0, w1] => buildLabelDict rest (pyDictSet label_dict w0 w1)
    | _ => .error "IndexError"

/-- Outcome of `LoadLabelMaps`: a missing file raises `NotFoundError`
inside `tf.gfile`, a line-count mismatch logs and calls `sys.exit(1)`, a
comma-less dict line raises `IndexError`, otherwise the label map and
the dictionary are returned. -/
inductive LoadResult where
  | raiseNotFound
  | exitOne
  | raiseIndexError
  | ok (labelmap : List String) (label_dict : List (String × String))
  deriving DecidableEq

/-- `LoadLabelMaps(num_classes, labelmap_path, dict_path)`.  A file is
`none` when missing, `some lines` when present with those raw lines.
The label map is the rstripped lines; if its length differs from
`num_classes` the program exits with status 1; then the dictionary is
built line by line. -/
def LoadLabelMaps (num_classes : ℕ) (labelmapFile dictFile : Option (List String)) :
    LoadResult :=
  match labelmapFile with
  | none => .raiseNotFound
  | some labelmapLines =>
    let labelmap := labelmapLines.map pyRstrip
    if labelmap.length ≠ num_classes then .exitOne
    else
      match dictFile with
      | none => .raiseNotFound
      | some dictLines =>
        match buildLabelDict dictLines [] with
        | .error _ => .raiseIndexError
        | .ok label_dict => .ok labelmap label_dict

/-- The key order of `predictions_eval.argsort()`: index `i` before
index `j` when `predictions_eval[i] <= predictions_eval[j]`. -/
def keyLe (predictions_eval : List ℚ) : ℕ → ℕ → Prop :=
  fun i j => predictions_eval.getD i 0 ≤ predictions_eval.getD j 0

instance keyLeDecidable (predictions_eval : List ℚ) : DecidableRel (keyLe predictions_eval) :=
  fun i j => inferInstanceAs (Decidable (predictions_eval.getD i 0 ≤ predictions_eval.getD j 0))

instance keyLeTotal (predictions_eval : List ℚ) : IsTotal ℕ (keyLe predictions_eval) :=
  ⟨fun _ _ => le_total _ _⟩

instance keyLeTrans (predictions_eval : List ℚ) : IsTrans ℕ (keyLe predictions_eval) :=
  ⟨fun _ _ _ hab hbc => le_trans hab hbc⟩

/-- `predictions_eval.argsort()`: a permutation of `0, ..., len-1`
sorted so that scores are ascending. -/
def argsort (predictions_eval : List ℚ) : List ℕ :=
  List.insertionSort (keyLe predictions_eval) (List.range predictions_eval.length)

/-- Python slice `l[-n:]` for `n >= 0`: the whole list when `n = 0`
(since `-0 == 0`), otherwise the last `min n l.length` elements. -/
def pyTakeLast {α : Type} (n : ℕ) (l : List α) : List α :=
  if n = 0 then l else l.drop (l.length - n)

/-- `top_k = predictions_eval.argsort()[-n:][::-1]`. -/
def topK (predictions_eval : List ℚ) (n : ℕ) : List ℕ :=
  (pyTakeLast n (argsort predictions_eval)).reverse

/-- Round the fraction `a / d` (with `d > 0`) to the nearest integer,
ties to even — the rounding of Python's fixed-point float formatting.
`a / d` and `a % d` are Euclidean quotient and remainder, so `a / d` is
the floor and `0 ≤ a % d < d`. -/
def roundHalfEvenDiv (a d : ℤ) : ℤ :=
  let f := a / d
  let r := a % d
  if 2 * r < d then f
  else if d < 2 * r then f + 1
  else if f % 2 = 0 then f else f + 1

/-- Python `'{:.2f}'.format(score)`: optional sign, integer part, a dot,
and exactly two decimal digits, rounding `100 * score` to the nearest
integer with ties to even. -/
def format2 (q : ℚ) : String :=
  let cents : ℤ := roundHalfEvenDiv (100 * q.num) (q.den : ℤ)
  let sign := if cents < 0 then "-" else ""
  let m := cents.natAbs
  sign ++ toString (m / 100) ++ "." ++
    String.mk [Nat.digitChar (m / 10 % 10), Nat.digitChar (m % 10)]

/-- One printed line:
`'{}: {} - {} (score = {:.2f})'.format(idx, mid, display_name, score)`. -/
def formatLine (idx : ℕ) (mid display_name : String) (score : ℚ) : String :=
  toString idx ++ ": " ++ mid ++ " - " ++ display_name ++
    " (score = " ++ format2 score ++ ")"

/-- The reporting loop of `main`: for each `idx` in `top_k`,
`mid = labelmap[idx]`, `display_name = label_dict.get(mid, 'unknown')`,
`score = predictions_eval[idx]`, print the formatted line. -/
def reportLines (predictions_eval : List ℚ) (labelmap : List String)
    (label_dict : List (String × String)) (n : ℕ) : List String :=
  (topK predictions_eval n).map fun idx =>
    formatLine idx (labelmap.getD idx "")
      (pyDictGet label_dict (labelmap.getD idx "") "unknown")
      (predictions_eval.getD idx 0)

/-- The environment of one invocation: which external files exist and
are well-formed, the raw lines of the two text files, the flag values,
and the score vector the network produces for this checkpoint and image
(the network is external to the repository). -/
structure Env where
  checkpointExists : Bool
  checkpointLoads : Bool
  imageExists : Bool
  imageDecodes : Bool
  labelmapFile : Option (List String)
  dictFile : Option (List String)
  numClasses : ℕ
  n : ℕ
  scores : List ℚ
  deriving DecidableEq

/-- Outcome of `main`: the printed prediction lines, a `sys.exit` after
a logged fatal message, or an uncaught exception terminating the
process. -/
inductive RunResult where
  | output (lines : List String)
  | fatalExit (code : ℕ)
  | uncaught (msg : String)
  deriving DecidableEq

/-- The control flow of `main`.  `tf.logging.fatal` only logs (the
script adds `sys.exit(1)` itself where it wants to exit), so after the
existence checks execution continues until a library call raises:
a missing image fails at `FastGFile(image_path).read()` during graph
construction; a missing or unloadable checkpoint fails at
`saver.restore`; an undecodable image fails at `sess.run`; only then are
the label maps loaded and the predictions printed. -/
def runMain (env : Env) : RunResult :=
  if env.imageExists = false then .uncaught "NotFoundError: image"
  else if env.checkpointExists = false || env.checkpointLoads = false then
    .uncaught "restore failed"
  else if env.imageDecodes = false then .uncaught "InvalidArgumentError: jpeg decode"
  else
    match LoadLabelMaps env.numClasses env.labelmapFile env.dictFile with
    | .raiseNotFound => .uncaught "NotFoundError: map file"
    | .exitOne => .fatalExit 1
    | .raiseIndexError => .uncaught "IndexError"
    | .ok labelmap label_dict =>
      .output (reportLines env.scores labelmap label_dict env.n)

/-- The pixel normalization of `PreprocessImage`:
`img = tf.mul(img, 1.0/127.5)` then `tf.sub(img, 1.0)`. -/
def normalizePixel (v : ℚ) : ℚ := v * (1 / 127.5) - 1

/-- A small well-formed environment: every file present, a one-class
label map `/m/1`, a dictionary mapping `/m/1` to `cat`, and a single
sigmoid score `0.5`. -/
def sampleEnv : Env :=
  ⟨true, true, true, true, some ["/m/1"], some ["/m/1,cat"], 1, 1, [mkRat 1 2]⟩

theorem argsort_perm (s : List ℚ) : List.Perm (argsort s) (List.range s.length) :=
  List.perm_insertionSort _ _

theorem argsort_length (s : List ℚ) : (argsort s).length = s.length := by
  simpa using (argsort_perm s).length_eq

theorem argsort_sorted (s : List ℚ) : List.Sorted (keyLe s) (argsort s) :=
  List.sorted_insertionSort _ _

theorem mem_argsort (s : List ℚ) (i : ℕ) : i ∈ argsort s ↔ i < s.length := by
  rw [(argsort_perm s).mem_iff, List.mem_range]

theorem argsort_nodup (s : List ℚ) : (argsort s).Nodup :=
  ((argsort_perm s).nodup_iff).mpr (List.nodup_range _)

theorem pyTakeLast_sublist {α : Type} (n : ℕ) (l : List α) :
    (pyTakeLast n l).Sublist l := by
  unfold pyTakeLast
  split
  · exact List.Sublist.refl l
  · exact List.drop_sublist _ l

theorem mem_topK (s : List ℚ) (n i : ℕ) (h : i ∈ topK s n) : i < s.length := by
  rw [topK, List.mem_reverse] at h
  exact (mem_argsort s i).mp ((pyTakeLast_sublist n (argsort s)).subset h)

theorem topK_nodup (s : List ℚ) (n : ℕ) : (topK s n).Nodup := by
  rw [topK, List.nodup_reverse]
  exact (pyTakeLast_sublist n (argsort s)).nodup (argsort_nodup s)

theorem topK_pairwise (s : List ℚ) (n : ℕ) :
    List.Pairwise (fun i j => s.getD j 0 ≤ s.getD i 0) (topK s n) := by
  rw [topK, List.pairwise_reverse]
  exact List.Pairwise.sublist (pyTakeLast_sublist n (argsort s)) (argsort_sorted s)

theorem topK_length (s : List ℚ) (n : ℕ) (hn : 1 ≤ n) :
    (topK s n).length = min n s.length := by
  rw [topK, List.length_reverse, pyTakeLast, if_neg (by omega), List.length_drop,
    argsort_length]
  omega

theorem topK_top (s : List ℚ) (n : ℕ) (hn : 1 ≤ n) (i : ℕ) (hi : i ∈ topK s n)
    (j : ℕ) (hj : j < s.length) (hj2 : j ∉ topK s n) :
    s.getD j 0 ≤ s.getD i 0 := by
  have hsplit := (List.take_append_drop ((argsort s).length - n) (argsort s)).symm
  have hmem_i : i ∈ (argsort s).drop ((argsort s).length - n) := by
    rw [topK, List.mem_reverse, pyTakeLast, if_neg (by omega)] at hi
    exact hi
  have hmem_j : j ∈ (argsort s).take ((argsort s).length - n) := by
    have hj_l : j ∈ argsort s := (mem_argsort s j).mpr hj
    rw [hsplit, List.mem_append] at hj_l
    rcases hj_l with h | h
    · exact h
    · exact absurd (by rw [topK, List.mem_reverse, pyTakeLast, if_neg (by omega)]; exact h) hj2
  have hp : List.Pairwise (keyLe s) (argsort s) := argsort_sorted s
  rw [hsplit, List.pairwise_append] at hp
  exact hp.2.2 j hmem_j i hmem_i

/-- C1 (corrected): the claim quantifies over every top-N count `n ≥ 0`,
but for `n = 0` the slice `predictions_eval.argsort()[-0:]` is the whole
array (Python `-0 == 0`), so all `num_classes` lines are printed rather
than `min(0, num_classes) = 0`.  Concretely, with two classes and
`n = 0`, two lines are printed. -/
theorem c1_counterexample :
    (reportLines [(1 : ℚ), 2] ["a", "b"] [] 0).length = 2 ∧
      min 0 ([(1 : ℚ), 2].length) = 0 := by
  decide

/-- C1 (amended): for every top-N count `n ≥ 1` and every score vector,
the program prints exactly `min n num_classes` lines, the printed class
indices are pairwise distinct and in range, and every printed class
scores at least as high as every class that is not printed — i.e. the
printed set is the `n` highest-scoring classes as selected by
`predictions_eval.argsort()[-n:][::-1]`.  (For `n = 0` the slice
degenerates to the whole array and all classes are printed.) -/
theorem c1_theorem (scores : List ℚ) (labelmap : List String)
    (label_dict : List (String × String)) (n : ℕ) (hn : 1 ≤ n) :
    (reportLines scores labelmap label_dict n).length = min n scores.length ∧
    (topK scores n).Nodup ∧
    (∀ i ∈ topK scores n, i < scores.length) ∧
    (∀ i ∈ topK scores n, ∀ j < scores.length, j ∉ topK scores n →
      scores.getD j 0 ≤ scores.getD i 0) := by
  refine ⟨?_, topK_nodup scores n, fun i hi => mem_topK scores n i hi, ?_⟩
  · rw [reportLines, List.length_map, topK_length scores n hn]
  · intro i hi j hj hj2
    exact topK_top scores n hn i hi j hj hj2

/-- C1 witness: the amended claim evaluated at the two-class score
vector `[1, 2]` with `n = 1`. -/
theorem c1_witness :
    1 ≤ 1 ∧
    ((reportLines [(1 : ℚ), 2] ["a", "b"] [] 1).length = min 1 ([(1 : ℚ), 2].length) ∧
     (topK [(1 : ℚ), 2] 1).Nodup ∧
     (∀ i ∈ topK [(1 : ℚ), 2] 1, i < ([(1 : ℚ), 2]).length) ∧
     (∀ i ∈ topK [(1 : ℚ), 2] 1, ∀ j < ([(1 : ℚ), 2]).length, j ∉ topK [(1 : ℚ), 2] 1 →
       ([(1 : ℚ), 2]).getD j 0 ≤ ([(1 : ℚ), 2]).getD i 0)) :=
  ⟨by decide, c1_theorem [1, 2] ["a", "b"] [] 1 (by decide)⟩

/-- C2: the printed indices are sorted by descending score — for
consecutive entries of `top_k`, the earlier one scores at least as high
as the later one. -/
theorem c2_theorem (predictions_eval : List ℚ) (n m : ℕ)
    (h : m + 1 < (topK predictions_eval n).length) :
    predictions_eval.getD ((topK predictions_eval n).getD (m + 1) 0) 0 ≤
      predictions_eval.getD ((topK predictions_eval n).getD m 0) 0 := by
  have hm : m < (topK predictions_eval n).length := by omega
  have hp := topK_pairwise predictions_eval n
  rw [List.pairwise_iff_getElem] at hp
  have hrel := hp m (m + 1) hm h (by omega)
  have e1 : (topK predictions_eval n).getD (m + 1) 0 = (topK predictions_eval n)[m + 1] :=
    List.getD_eq_getElem _ _ h
  have e2 : (topK predictions_eval n).getD m 0 = (topK predictions_eval n)[m] :=
    List.getD_eq_getElem _ _ hm
  rw [e1, e2]
  exact hrel

/-- C2 witness: consecutive printed scores at the score vector `[1, 2]`
with `n = 2`, first pair. -/
theorem c2_witness :
    0 + 1 < (topK [(1 : ℚ), 2] 2).length ∧
    ([(1 : ℚ), 2].getD ((topK [(1 : ℚ), 2] 2).getD (0 + 1) 0) 0 ≤
      [(1 : ℚ), 2].getD ((topK [(1 : ℚ), 2] 2).getD 0 0) 0) :=
  ⟨by decide, c2_theorem [1, 2] 2 0 (by decide)⟩

theorem splitAtComma_none (cs : List Char) (h : ∀ c ∈ cs, c ≠ ',') :
    splitAtComma cs = none := by
  induction cs with
  | nil => rfl
  | cons c rest ih =>
    rw [splitAtComma, if_neg (h c (by simp)), ih (fun x hx => h x (by simp [hx]))]

theorem splitAtComma_some (cs : List Char) (h : ',' ∈ cs) :
    ∃ a b, splitAtComma cs = some (a, b) := by
  induction cs with
  | nil => simp at h
  | cons c rest ih =>
    by_cases hc : c = ','
    · exact ⟨[], rest, by rw [splitAtComma, if_pos hc]⟩
    · have hr : ',' ∈ rest := by
        rcases List.mem_cons.mp h with h1 | h1
        · exact absurd h1.symm hc
        · exact h1
      obtain ⟨a, b, hab⟩ := ih hr
      exact ⟨c :: a, b, by rw [splitAtComma, if_neg hc, hab]⟩

theorem pySplitComma1_no_comma (s : String) (h : ∀ c ∈ s.data, c ≠ ',') :
    pySplitComma1 s = [s] := by
  rw [pySplitComma1, splitAtComma_none s.data h]

theorem pySplitComma1_of_comma (s : String) (h : ',' ∈ s.data) :
    ∃ a b, pySplitComma1 s = [a, b] := by
  obtain ⟨a, b, hab⟩ := splitAtComma_some s.data h
  exact ⟨String.mk a, String.mk b, by rw [pySplitComma1, hab]⟩

theorem buildLabelDict_error (dl : List String) (d : List (String × String))
    (h : ∃ line ∈ dl, ∀ c ∈ line.data, c ≠ ',') :
    buildLabelDict dl d = .error "IndexError" := by
  induction dl generalizing d with
  | nil => simp at h
  | cons line rest ih =>
    by_cases hl : ∀ c ∈ line.data, c ≠ ','
    · rw [buildLabelDict, pySplitComma1_no_comma line hl]
      rfl
    · obtain ⟨bad, hbad, hbadc⟩ := h
      have hbr : bad ∈ rest := by
        rcases List.mem_cons.mp hbad with h1 | h1
        · exact absurd (h1 ▸ hbadc) hl
        · exact h1
      have hcomma : ',' ∈ line.data := by
        by_contra hn
        exact hl (fun c hc hceq => hn (hceq ▸ hc))
      obtain ⟨a, b, hab⟩ := pySplitComma1_of_comma line hcomma
      rw [buildLabelDict, hab]
      exact ih _ ⟨bad, hbr, hbadc⟩

theorem buildLabelDict_ok (dl : List String) (d : List (String × String))
    (h : ∀ line ∈ dl, ',' ∈ line.data) :
    ∃ label_dict, buildLabelDict dl d = .ok label_dict := by
  induction dl generalizing d with
  | nil => exact ⟨d, rfl⟩
  | cons line rest ih =>
    obtain ⟨a, b, hab⟩ := pySplitComma1_of_comma line (h line (by simp))
    rw [buildLabelDict, hab]
    exact ih _ (fun l hl => h l (List.mem_cons_of_mem _ hl))

theorem LoadLabelMaps_exitOne (nc : ℕ) (ll : List String) (df : Option (List String))
    (h : ll.length ≠ nc) : LoadLabelMaps nc (some ll) df = .exitOne := by
  simp [LoadLabelMaps, List.length_map, h]

theorem LoadLabelMaps_raise (nc : ℕ) (ll dl : List String) (hc : ll.length = nc)
    (msg : String) (hd : buildLabelDict dl [] = .error msg) :
    LoadLabelMaps nc (some ll) (some dl) = .raiseIndexError := by
  simp [LoadLabelMaps, List.length_map, hc, hd]

theorem LoadLabelMaps_ok (nc : ℕ) (ll dl : List String) (hc : ll.length = nc)
    (d : List (String × String)) (hd : buildLabelDict dl [] = .ok d) :
    LoadLabelMaps nc (some ll) (some dl) = .ok (ll.map pyRstrip) d := by
  simp [LoadLabelMaps, List.length_map, hc, hd]

theorem LoadLabelMaps_ok_inv (nc : ℕ) (lf df : Option (List String))
    (lm : List String) (d : List (String × String))
    (h : LoadLabelMaps nc lf df = .ok lm d) :
    ∃ ll dl, lf = some ll ∧ df = some dl ∧ lm = ll.map pyRstrip ∧
      ll.length = nc ∧ buildLabelDict dl [] = .ok d := by
  cases lf with
  | none => simp [LoadLabelMaps] at h
  | some ll =>
    by_cases hc : ll.length = nc
    · cases df with
      | none => simp [LoadLabelMaps, List.length_map, hc] at h
      | some dl =>
        cases hb : buildLabelDict dl [] with
        | error msg =>
          rw [LoadLabelMaps_raise nc ll dl hc msg hb] at h
          exact LoadResult.noConfusion h
        | ok d0 =>
          rw [LoadLabelMaps_ok nc ll dl hc d0 hb] at h
          obtain ⟨e1, e2⟩ := LoadResult.ok.inj h
          exact ⟨ll, dl, rfl, rfl, e1.symm, hc, e2 ▸ hb⟩
    · rw [LoadLabelMaps_exitOne nc ll df hc] at h
      exact LoadResult.noConfusion h

theorem runMain_output_iff (env : Env) (lines : List String) :
    runMain env = RunResult.output lines ↔
      env.imageExists = true ∧ env.checkpointExists = true ∧
      env.checkpointLoads = true ∧ env.imageDecodes = true ∧
      ∃ labelmap label_dict,
        LoadLabelMaps env.numClasses env.labelmapFile env.dictFile =
          LoadResult.ok labelmap label_dict ∧
        lines = reportLines env.scores labelmap label_dict env.n := by
  unfold runMain
  cases hie : env.imageExists <;> cases hce : env.checkpointExists <;>
    cases hcl : env.checkpointLoads <;> cases hid : env.imageDecodes <;>
      cases hL : LoadLabelMaps env.numClasses env.labelmapFile env.dictFile <;>
        simp [hL, eq_comm, and_assoc]

/-- C3: if the checkpoint is missing (or fails to restore), the image is
missing, or the label-map file is missing or has the wrong number of
lines, `main` never reaches the prediction-printing loop: the run ends
in a fatal `sys.exit` or an uncaught library exception, never in printed
output. -/
theorem c3_theorem (env : Env)
    (h : env.checkpointExists = false ∨ env.checkpointLoads = false ∨
      env.imageExists = false ∨ env.imageDecodes = false ∨
      env.labelmapFile = none ∨
      ∃ ll, env.labelmapFile = some ll ∧ ll.length ≠ env.numClasses) :
    ∀ lines, runMain env ≠ RunResult.output lines := by
  intro lines hout
  rw [runMain_output_iff] at hout
  obtain ⟨hie, hce, hcl, hid, lm, d, hL, -⟩ := hout
  rcases h with h | h | h | h | h | ⟨ll, hll, hlen⟩
  · rw [hce] at h; exact Bool.noConfusion h
  · rw [hcl] at h; exact Bool.noConfusion h
  · rw [hie] at h; exact Bool.noConfusion h
  · rw [hid] at h; exact Bool.noConfusion h
  · rw [h, LoadLabelMaps] at hL; exact LoadResult.noConfusion hL
  · rw [hll, LoadLabelMaps_exitOne env.numClasses ll env.dictFile hlen] at hL
    exact LoadResult.noConfusion hL

/-- C3 witness: a run whose label map has one line while two classes are
declared aborts without printing. -/
theorem c3_witness :
    ((⟨true, true, true, true, some ["/m/1"], some ["/m/1,cat"], 2, 1,
        [(1 : ℚ), 2]⟩ : Env).checkpointExists = false ∨
      (⟨true, true, true, true, some ["/m/1"], some ["/m/1,cat"], 2, 1,
        [(1 : ℚ), 2]⟩ : Env).checkpointLoads = false ∨
      (⟨true, true, true, true, some ["/m/1"], some ["/m/1,cat"], 2, 1,
        [(1 : ℚ), 2]⟩ : Env).imageExists = false ∨
      (⟨true, true, true, true, some ["/m/1"], some ["/m/1,cat"], 2, 1,
        [(1 : ℚ), 2]⟩ : Env).imageDecodes = false ∨
      (⟨true, true, true, true, some ["/m/1"], some ["/m/1,cat"], 2, 1,
        [(1 : ℚ), 2]⟩ : Env).labelmapFile = none ∨
      ∃ ll, (⟨true, true, true, true, some ["/m/1"], some ["/m/1,cat"], 2, 1,
        [(1 : ℚ), 2]⟩ : Env).labelmapFile = some ll ∧
        ll.length ≠ (⟨true, true, true, true, some ["/m/1"], some ["/m/1,cat"], 2, 1,
          [(1 : ℚ), 2]⟩ : Env).numClasses) ∧
    ∀ lines, runMain (⟨true, true, true, true, some ["/m/1"], some ["/m/1,cat"], 2, 1,
      [(1 : ℚ), 2]⟩ : Env) ≠ RunResult.output lines :=
  ⟨Or.inr (Or.inr (Or.inr (Or.inr (Or.inr ⟨["/m/1"], rfl, by decide⟩)))),
    c3_theorem _ (Or.inr (Or.inr (Or.inr (Or.inr (Or.inr ⟨["/m/1"], rfl, by decide⟩)))))⟩

/-- C4 (counterexample): with a one-line label map and `num_classes = 1`
(counts equal) but a dict.csv line without a comma, `LoadLabelMaps` does
not return normally — it raises `IndexError`. -/
theorem c4_counterexample :
    (["/m/1"] : List String).length = 1 ∧
      LoadLabelMaps 1 (some ["/m/1"]) (some ["bad"]) = .raiseIndexError := by
  decide

/-- C4 (amended): `LoadLabelMaps` calls `sys.exit(1)` if and only if the
label-map line count differs from `num_classes`; when the counts are
equal it returns normally provided every dict.csv line contains a comma
(with a comma-less dict line it instead raises an uncaught
`IndexError`). -/
theorem c4_theorem (nc : ℕ) (ll dl : List String) :
    (LoadLabelMaps nc (some ll) (some dl) = .exitOne ↔ ll.length ≠ nc) ∧
    (ll.length = nc → (∀ line ∈ dl, ',' ∈ line.data) →
      ∃ labelmap label_dict,
        LoadLabelMaps nc (some ll) (some dl) = .ok labelmap label_dict) := by
  constructor
  · constructor
    · intro h he
      cases hb : buildLabelDict dl [] with
      | error msg =>
        rw [LoadLabelMaps_raise nc ll dl he msg hb] at h
        exact LoadResult.noConfusion h
      | ok d =>
        rw [LoadLabelMaps_ok nc ll dl he d hb] at h
        exact LoadResult.noConfusion h
    · intro h
      exact LoadLabelMaps_exitOne nc ll (some dl) h
  · intro hc hcomma
    obtain ⟨d, hd⟩ := buildLabelDict_ok dl [] hcomma
    exact ⟨ll.map pyRstrip, d, LoadLabelMaps_ok nc ll dl hc d hd⟩

/-- C4 witness: the amended claim's normal-return case at a one-line
label map with `num_classes = 1` and a well-formed dict line. -/
theorem c4_witness :
    ∃ labelmap label_dict,
      LoadLabelMaps 1 (some ["/m/1"]) (some ["/m/1,cat"]) = .ok labelmap label_dict :=
  (c4_theorem 1 ["/m/1"] ["/m/1,cat"]).2 (by decide) (by decide)

/-- C10: with a matching label-map line count, a dict.csv line that
contains no comma makes `LoadLabelMaps` raise an uncaught `IndexError`
(the `.raiseIndexError` outcome, distinct from the logged-and-exit
`.exitOne` outcome). -/
theorem c10_theorem (nc : ℕ) (ll dl : List String) (hc : ll.length = nc)
    (hbad : ∃ line ∈ dl, ∀ c ∈ line.data, c ≠ ',') :
    LoadLabelMaps nc (some ll) (some dl) = .raiseIndexError :=
  LoadLabelMaps_raise nc ll dl hc "IndexError" (buildLabelDict_error dl [] hbad)

/-- C10 witness: a one-line label map with `num_classes = 1` and the
comma-less dict line `nocomma`. -/
theorem c10_witness :
    (["/m/1"] : List String).length = 1 ∧
    (∃ line ∈ (["nocomma"] : List String), ∀ c ∈ line.data, c ≠ ',') ∧
    LoadLabelMaps 1 (some ["/m/1"]) (some ["nocomma"]) = .raiseIndexError :=
  ⟨by decide, by decide, c10_theorem 1 ["/m/1"] ["nocomma"] (by decide) (by decide)⟩

theorem pyDictGet_of_not_mem (d : List (String × String)) (k dflt : String)
    (h : ∀ p ∈ d, p.1 ≠ k) : pyDictGet d k dflt = dflt := by
  induction d with
  | nil => rfl
  | cons p rest ih =>
    obtain ⟨k1, v1⟩ := p
    rw [pyDictGet, if_neg (h (k1, v1) (by simp))]
    exact ih (fun q hq => h q (List.mem_cons_of_mem _ hq))

theorem pyDictGet_of_mem (d : List (String × String)) (k v dflt : String)
    (hnodup : (d.map Prod.fst).Nodup) (hmem : (k, v) ∈ d) :
    pyDictGet d k dflt = v := by
  induction d with
  | nil => simp at hmem
  | cons p rest ih =>
    obtain ⟨k1, v1⟩ := p
    simp only [List.map_cons, List.nodup_cons] at hnodup
    rcases List.mem_cons.mp hmem with h1 | h1
    · rw [Prod.mk.injEq] at h1
      rw [pyDictGet, if_pos h1.1.symm]
      exact h1.2.symm
    · have hk1 : ¬(k1 = k) := by
        intro he
        subst he
        exact hnodup.1 (by simpa using List.mem_map_of_mem Prod.fst h1)
      rw [pyDictGet, if_neg hk1]
      exact ih hnodup.2 h1

theorem pyDictSet_keys_mem (d : List (String × String)) (k v x : String) :
    x ∈ (pyDictSet d k v).map Prod.fst ↔ x ∈ d.map Prod.fst ∨ x = k := by
  induction d with
  | nil => simp [pyDictSet]
  | cons p rest ih =>
    obtain ⟨k1, v1⟩ := p
    rw [pyDictSet]
    by_cases hk : k1 = k
    · rw [if_pos hk]
      subst hk
      simp only [List.map_cons, List.mem_cons]
      tauto
    · rw [if_neg hk]
      simp only [List.map_cons, List.mem_cons, ih]
      tauto

theorem pyDictSet_keys_nodup (d : List (String × String)) (k v : String)
    (h : (d.map Prod.fst).Nodup) : ((pyDictSet d k v).map Prod.fst).Nodup := by
  induction d with
  | nil => simp [pyDictSet]
  | cons p rest ih =>
    obtain ⟨k1, v1⟩ := p
    simp only [List.map_cons, List.nodup_cons] at h
    rw [pyDictSet]
    by_cases hk : k1 = k
    · rw [if_pos hk]
      subst hk
      simp only [List.map_cons, List.nodup_cons]
      exact ⟨h.1, h.2⟩
    · rw [if_neg hk]
      simp only [List.map_cons, List.nodup_cons]
      refine ⟨?_, ih h.2⟩
      rw [pyDictSet_keys_mem]
      rintro (hh | hh)
      · exact h.1 hh
      · exact hk hh

theorem buildLabelDict_nodup (dl : List String) :
    ∀ d0 d, (d0.map Prod.fst).Nodup → buildLabelDict dl d0 = .ok d →
      (d.map Prod.fst).Nodup := by
  induction dl with
  | nil =>
    intro d0 d h0 h
    rw [buildLabelDict] at h
    obtain rfl := Except.ok.inj h
    exact h0
  | cons line rest ih =>
    intro d0 d h0 h
    rw [buildLabelDict] at h
    rcases hsp : (pySplitComma1 line).map pyStrip with _ | ⟨w0, tl⟩
    · rw [hsp] at h
      exact Except.noConfusion h
    · rcases tl with _ | ⟨w1, tl2⟩
      · rw [hsp] at h
        exact Except.noConfusion h
      · rcases tl2 with _ | ⟨w2, tl3⟩
        · rw [hsp] at h
          exact ih (pyDictSet d0 w0 w1) d (pyDictSet_keys_nodup d0 w0 w1 h0) h
        · rw [hsp] at h
          exact Except.noConfusion h

/-- C5: every printed prediction displays
`label_dict.get(mid, 'unknown')`: the name is `unknown` when the mid is
absent from the dictionary built from dict.csv, and the dictionary's
value for the mid when present. -/
theorem c5_theorem (scores : List ℚ) (labelmap dictLines : List String)
    (label_dict : List (String × String)) (n : ℕ)
    (hd : buildLabelDict dictLines [] = .ok label_dict)
    (line : String) (hl : line ∈ reportLines scores labelmap label_dict n) :
    ∃ idx, idx ∈ topK scores n ∧
      line = formatLine idx (labelmap.getD idx "")
        (pyDictGet label_dict (labelmap.getD idx "") "unknown") (scores.getD idx 0) ∧
      ((∀ p ∈ label_dict, p.1 ≠ labelmap.getD idx "") →
        pyDictGet label_dict (labelmap.getD idx "") "unknown" = "unknown") ∧
      (∀ v, (labelmap.getD idx "", v) ∈ label_dict →
        pyDictGet label_dict (labelmap.getD idx "") "unknown" = v) := by
  rw [reportLines] at hl
  obtain ⟨idx, hidx, hline⟩ := List.mem_map.mp hl
  exact ⟨idx, hidx, hline.symm,
    fun hab => pyDictGet_of_not_mem label_dict (labelmap.getD idx "") "unknown" hab,
    fun v hv => pyDictGet_of_mem label_dict (labelmap.getD idx "") v "unknown"
      (buildLabelDict_nodup dictLines [] label_dict (by simp) hd) hv⟩

/-- C5 witness: the one-class sample report, whose single line shows
the dictionary value `cat` for the mid `/m/1`. -/
theorem c5_witness :
    (buildLabelDict ["/m/1,cat"] [] = Except.ok [("/m/1", "cat")]) ∧
    ("0: /m/1 - cat (score = 0.50)" ∈
      reportLines [mkRat 1 2] ["/m/1"] [("/m/1", "cat")] 1) ∧
    (∃ idx, idx ∈ topK [mkRat 1 2] 1 ∧
      "0: /m/1 - cat (score = 0.50)" = formatLine idx ((["/m/1"] : List String).getD idx "")
        (pyDictGet [("/m/1", "cat")] ((["/m/1"] : List String).getD idx "") "unknown")
        (([mkRat 1 2] : List ℚ).getD idx 0) ∧
      ((∀ p ∈ ([("/m/1", "cat")] : List (String × String)),
          p.1 ≠ (["/m/1"] : List String).getD idx "") →
        pyDictGet [("/m/1", "cat")] ((["/m/1"] : List String).getD idx "") "unknown" =
          "unknown") ∧
      (∀ v, ((["/m/1"] : List String).getD idx "", v) ∈
          ([("/m/1", "cat")] : List (String × String)) →
        pyDictGet [("/m/1", "cat")] ((["/m/1"] : List String).getD idx "") "unknown" = v)) :=
  ⟨rfl, by decide,
    c5_theorem [mkRat 1 2] ["/m/1"] ["/m/1,cat"] [("/m/1", "cat")] 1 rfl
      "0: /m/1 - cat (score = 0.50)" (by decide)⟩

/-- C6: every printed line shows, as its mid, the entry of the label map
at the printed class index `idx` — that is, line `idx` (0-based) of the
label-map file with trailing whitespace stripped — and `idx` is in range
of the label-map file's lines. -/
theorem c6_theorem (env : Env) (hs : env.scores.length = env.numClasses)
    (lines : List String) (h : runMain env = RunResult.output lines)
    (line : String) (hl : line ∈ lines) :
    ∃ idx ll name, env.labelmapFile = some ll ∧ idx < ll.length ∧
      line = formatLine idx (pyRstrip (ll.getD idx "")) name (env.scores.getD idx 0) := by
  rw [runMain_output_iff] at h
  obtain ⟨-, -, -, -, lm, d, hL, hlines⟩ := h
  obtain ⟨ll, dl, hlf, hdf, hlm, hlen, hd⟩ := LoadLabelMaps_ok_inv _ _ _ _ _ hL
  subst hlines
  subst hlm
  rw [reportLines] at hl
  obtain ⟨idx, hidx, hline⟩ := List.mem_map.mp hl
  have hidx_scores : idx < env.scores.length := mem_topK env.scores env.n idx hidx
  have hidx_lt : idx < ll.length := by omega
  have hmap : (ll.map pyRstrip).getD idx "" = pyRstrip (ll.getD idx "") := by
    rw [List.getD_eq_getElem _ _ (by simpa using hidx_lt),
      List.getD_eq_getElem _ _ hidx_lt, List.getElem_map]
  refine ⟨idx, ll, pyDictGet d ((ll.map pyRstrip).getD idx "") "unknown", hlf, hidx_lt, ?_⟩
  rw [← hline, hmap]

/-- C6 witness: the sample run's single printed line carries the
rstripped first label-map line `/m/1`. -/
theorem c6_witness :
    (sampleEnv.scores.length = sampleEnv.numClasses) ∧
    (runMain sampleEnv = RunResult.output ["0: /m/1 - cat (score = 0.50)"]) ∧
    ("0: /m/1 - cat (score = 0.50)" ∈ (["0: /m/1 - cat (score = 0.50)"] : List String)) ∧
    (∃ idx ll name, sampleEnv.labelmapFile = some ll ∧ idx < ll.length ∧
      "0: /m/1 - cat (score = 0.50)" =
        formatLine idx (pyRstrip (ll.getD idx "")) name (sampleEnv.scores.getD idx 0)) :=
  ⟨by decide, by decide, by decide,
    c6_theorem sampleEnv (by decide) ["0: /m/1 - cat (score = 0.50)"] (by decide)
      "0: /m/1 - cat (score = 0.50)" (by decide)⟩

theorem digitChar_mod_isDigit (x : ℕ) : (Nat.digitChar (x % 10)).isDigit = true := by
  have h : x % 10 < 10 := Nat.mod_lt _ (by norm_num)
  have hall : ∀ y, y < 10 → (Nat.digitChar y).isDigit = true := by decide
  exact hall _ h

theorem format2_decimals (q : ℚ) :
    ∃ s c1 c2, format2 q = s ++ "." ++ String.mk [c1, c2] ∧
      c1.isDigit = true ∧ c2.isDigit = true :=
  ⟨(if roundHalfEvenDiv (100 * q.num) (q.den : ℤ) < 0 then "-" else "") ++
      toString ((roundHalfEvenDiv (100 * q.num) (q.den : ℤ)).natAbs / 100),
    Nat.digitChar ((roundHalfEvenDiv (100 * q.num) (q.den : ℤ)).natAbs / 10 % 10),
    Nat.digitChar ((roundHalfEvenDiv (100 * q.num) (q.den : ℤ)).natAbs % 10),
    rfl, digitChar_mod_isDigit _, digitChar_mod_isDigit _⟩

/-- C7: every line the program prints has the exact form
`idx: mid - display_name (score = value)`, where the score is rendered
with two decimal places: its rendering ends in a dot followed by exactly
two digit characters. -/
theorem c7_theorem (env : Env) (lines : List String)
    (h : runMain env = RunResult.output lines) (line : String) (hl : line ∈ lines) :
    ∃ (idx : ℕ) (mid name : String) (q : ℚ),
      line = toString idx ++ ": " ++ mid ++ " - " ++ name ++
        " (score = " ++ format2 q ++ ")" ∧
      ∃ s c1 c2, format2 q = s ++ "." ++ String.mk [c1, c2] ∧
        c1.isDigit = true ∧ c2.isDigit = true := by
  rw [runMain_output_iff] at h
  obtain ⟨-, -, -, -, lm, d, hL, hlines⟩ := h
  subst hlines
  rw [reportLines] at hl
  obtain ⟨idx, hidx, hline⟩ := List.mem_map.mp hl
  exact ⟨idx, lm.getD idx "", pyDictGet d (lm.getD idx "") "unknown",
    env.scores.getD idx 0, hline.symm, format2_decimals _⟩

/-- C7 witness: the sample run's single line, with score rendered as
`0.50`. -/
theorem c7_witness :
    (runMain sampleEnv = RunResult.output ["0: /m/1 - cat (score = 0.50)"]) ∧
    ("0: /m/1 - cat (score = 0.50)" ∈ (["0: /m/1 - cat (score = 0.50)"] : List String)) ∧
    (∃ (idx : ℕ) (mid name : String) (q : ℚ),
      "0: /m/1 - cat (score = 0.50)" = toString idx ++ ": " ++ mid ++
        " - " ++ name ++ " (score = " ++ format2 q ++ ")" ∧
      ∃ s c1 c2, format2 q = s ++ "." ++ String.mk [c1, c2] ∧
        c1.isDigit = true ∧ c2.isDigit = true) :=
  ⟨by decide, by decide,
    c7_theorem sampleEnv ["0: /m/1 - cat (score = 0.50)"] (by decide)
      "0: /m/1 - cat (score = 0.50)" (by decide)⟩

/-- C8: the reporting stage is deterministic — any two runs that reach
the printing loop and agree on the score vector, the label-map file
contents, the dict.csv contents and the top-N count print identical
output, whatever their other settings. -/
theorem c8_theorem (e1 e2 : Env) (l1 l2 : List String)
    (h1 : runMain e1 = RunResult.output l1) (h2 : runMain e2 = RunResult.output l2)
    (hs : e1.scores = e2.scores) (hlf : e1.labelmapFile = e2.labelmapFile)
    (hdf : e1.dictFile = e2.dictFile) (hn : e1.n = e2.n) : l1 = l2 := by
  rw [runMain_output_iff] at h1 h2
  obtain ⟨-, -, -, -, lmA, dA, hLA, hA⟩ := h1
  obtain ⟨-, -, -, -, lmB, dB, hLB, hB⟩ := h2
  obtain ⟨llA, dlA, hlfA, hdfA, hlmA, -, hdA⟩ := LoadLabelMaps_ok_inv _ _ _ _ _ hLA
  obtain ⟨llB, dlB, hlfB, hdfB, hlmB, -, hdB⟩ := LoadLabelMaps_ok_inv _ _ _ _ _ hLB
  have hll : llA = llB := by
    rw [hlfA, hlfB] at hlf
    exact Option.some.inj hlf
  have hdl : dlA = dlB := by
    rw [hdfA, hdfB] at hdf
    exact Option.some.inj hdf
  have hlm : lmA = lmB := by rw [hlmA, hlmB, hll]
  have hd : dA = dB := by
    rw [hdl] at hdA
    rw [hdA] at hdB
    exact Except.ok.inj hdB
  rw [hA, hB, hs, hn, hlm, hd]

/-- C8 witness: the deterministic sample run compared with itself. -/
theorem c8_witness :
    (runMain sampleEnv = RunResult.output ["0: /m/1 - cat (score = 0.50)"]) ∧
    ((["0: /m/1 - cat (score = 0.50)"] : List String) =
      ["0: /m/1 - cat (score = 0.50)"]) :=
  ⟨by decide,
    c8_theorem sampleEnv sampleEnv _ _ (by decide) (by decide) rfl rfl rfl rfl⟩

/-- C9: the preprocessing normalization maps a decoded pixel value
`v ∈ [0, 255]` to `v / 127.5 - 1`, which lies in `[-1, 1]`, with `0`
mapped to `-1` and `255` mapped to `1` — the centering constant is
`127.5`, not `128.0` (with `128.0`, `255` would map to `0.9921875`). -/
theorem c9_theorem (v : ℚ) (h0 : 0 ≤ v) (h255 : v ≤ 255) :
    (-1 ≤ normalizePixel v ∧ normalizePixel v ≤ 1) ∧
      normalizePixel 0 = -1 ∧ normalizePixel 255 = 1 := by
  have he : ∀ w : ℚ, normalizePixel w = w * (2 / 255) - 1 := by
    intro w
    unfold normalizePixel
    norm_num
  refine ⟨⟨?_, ?_⟩, by rw [he 0]; norm_num, by rw [he 255]; norm_num⟩
  · rw [he v]
    linarith
  · rw [he v]
    linarith

/-- C9 witness: the pixel value 51. -/
theorem c9_witness :
    (0 : ℚ) ≤ 51 ∧ (51 : ℚ) ≤ 255 ∧
      ((-1 ≤ normalizePixel 51 ∧ normalizePixel 51 ≤ 1) ∧
        normalizePixel 0 = -1 ∧ normalizePixel 255 = 1) :=
  ⟨by norm_num, by norm_num, c9_theorem 51 (by norm_num) (by norm_num)⟩
example : topK [(1 : ℚ), 2] 1 = [1] := by decide
example : topK [(3 : ℚ), 2, 5] 2 = [2, 0] := by decide
example : format2 (mkRat 1 2) = "0.50" := by decide
example : format2 (mkRat 942 1000) = "0.94" := by decide
example : format2 2 = "2.00" := by decide
example : pyRstrip "abc \n" = "abc" := by decide
example : pySplitComma1 "a,b,c" = ["a", "b,c"] := by decide
example : LoadLabelMaps 1 (some ["a"]) (some ["bad"]) = .raiseIndexError := by decide
example : LoadLabelMaps 1 (some ["/m/1\n"]) (some ["\"/m/1\",cat\n"]) =
    .ok ["/m/1"] [("/m/1", "cat")] := by decide
